import Mathlib

/-!
Verification of the valuation request/cache pipeline of the
Equipment-Valuation repository
(src/backend/valuation_engine/claude_valuation.py).

The embedding below follows the Python source function by function:

* `Json` models the Python values produced by `json.loads` / consumed by
  `json.dump`. Numbers are modelled as integers (the only numeric shape the
  pipeline's data uses); floating point literals are outside the model.
* `json_loads` models `json.loads` (strict JSON, integer numbers, the
  string escapes `\" \\ \/ \n \t \r \b \f`; `\uXXXX` escapes are outside
  the model) returning `none` where the Python function raises
  `JSONDecodeError`.
* The cache directory `./cache` is modelled as an association list from
  fingerprint to the stored deserialized value; a corrupt or missing file
  is an absent entry.  The `functools.lru_cache` memo that decorates
  `get_cached_valuation` is modelled explicitly as part of the state.
* `hashlib.md5(...).hexdigest()` is abstracted as a parameter
  `md5hex : String → String`; every theorem below holds for an arbitrary
  digest function, so no statement depends on MD5 specifics.
* The Anthropic client call `client.messages.create(...)` together with the
  extraction of the response text is abstracted as a stub
  `client : Nat → Except String String` mapping the attempt number to
  either an exception message or the response text.  `time.sleep` calls
  are recorded in a list of slept durations (in seconds), and the number
  of client invocations is recorded alongside.
-/

namespace EquipmentValuation

/-- Model of the Python values handled by `json.loads`/`json.dump`:
`None`, `bool`, `int`, `str`, `list`, `dict` (insertion ordered). -/
inductive Json where
  | null : Json
  | bool (b : Bool) : Json
  | num (n : Int) : Json
  | str (s : String) : Json
  | arr (elems : List Json) : Json
  | obj (fields : List (String × Json)) : Json

mutual

/-- Decidable equality on `Json` (the automatic deriving handler does not
cover this nested inductive). -/
def Json.decEq : (a b : Json) → Decidable (a = b)
  | .null, .null => isTrue rfl
  | .null, .bool _ => isFalse (fun h => Json.noConfusion h)
  | .null, .num _ => isFalse (fun h => Json.noConfusion h)
  | .null, .str _ => isFalse (fun h => Json.noConfusion h)
  | .null, .arr _ => isFalse (fun h => Json.noConfusion h)
  | .null, .obj _ => isFalse (fun h => Json.noConfusion h)
  | .bool _, .null => isFalse (fun h => Json.noConfusion h)
  | .bool x, .bool y =>
    if h : x = y then isTrue (by rw [h]) else isFalse (fun hh => h (by injection hh))
  | .bool _, .num _ => isFalse (fun h => Json.noConfusion h)
  | .bool _, .str _ => isFalse (fun h => Json.noConfusion h)
  | .bool _, .arr _ => isFalse (fun h => Json.noConfusion h)
  | .bool _, .obj _ => isFalse (fun h => Json.noConfusion h)
  | .num _, .null => isFalse (fun h => Json.noConfusion h)
  | .num _, .bool _ => isFalse (fun h => Json.noConfusion h)
  | .num x, .num y =>
    if h : x = y then isTrue (by rw [h]) else isFalse (fun hh => h (by injection hh))
  | .num _, .str _ => isFalse (fun h => Json.noConfusion h)
  | .num _, .arr _ => isFalse (fun h => Json.noConfusion h)
  | .num _, .obj _ => isFalse (fun h => Json.noConfusion h)
  | .str _, .null => isFalse (fun h => Json.noConfusion h)
  | .str _, .bool _ => isFalse (fun h => Json.noConfusion h)
  | .str _, .num _ => isFalse (fun h => Json.noConfusion h)
  | .str x, .str y =>
    if h : x = y then isTrue (by rw [h]) else isFalse (fun hh => h (by injection hh))
  | .str _, .arr _ => isFalse (fun h => Json.noConfusion h)
  | .str _, .obj _ => isFalse (fun h => Json.noConfusion h)
  | .arr _, .null => isFalse (fun h => Json.noConfusion h)
  | .arr _, .bool _ => isFalse (fun h => Json.noConfusion h)
  | .arr _, .num _ => isFalse (fun h => Json.noConfusion h)
  | .arr _, .str _ => isFalse (fun h => Json.noConfusion h)
  | .arr xs, .arr ys =>
    match Json.decEqList xs ys with
    | isTrue h => isTrue (by rw [h])
    | isFalse h => isFalse (fun hh => h (by injection hh))
  | .arr _, .obj _ => isFalse (fun h => Json.noConfusion h)
  | .obj _, .null => isFalse (fun h => Json.noConfusion h)
  | .obj _, .bool _ => isFalse (fun h => Json.noConfusion h)
  | .obj _, .num _ => isFalse (fun h => Json.noConfusion h)
  | .obj _, .str _ => isFalse (fun h => Json.noConfusion h)
  | .obj _, .arr _ => isFalse (fun h => Json.noConfusion h)
  | .obj xs, .obj ys =>
    match Json.decEqFields xs ys with
    | isTrue h => isTrue (by rw [h])
    | isFalse h => isFalse (fun hh => h (by injection hh))

/-- Decidable equality on lists of `Json` values. -/
def Json.decEqList : (xs ys : List Json) → Decidable (xs = ys)
  | [], [] => isTrue rfl
  | [], _ :: _ => isFalse (fun h => List.noConfusion h)
  | _ :: _, [] => isFalse (fun h => List.noConfusion h)
  | x :: xs, y :: ys =>
    match Json.decEq x y with
    | isFalse h1 => isFalse (fun hh => h1 (by injection hh))
    | isTrue h1 =>
      match Json.decEqList xs ys with
      | isTrue h2 => isTrue (by rw [h1, h2])
      | isFalse h2 => isFalse (fun hh => h2 (by injection hh))

/-- Decidable equality on key-value field lists. -/
def Json.decEqFields : (xs ys : List (String × Json)) → Decidable (xs = ys)
  | [], [] => isTrue rfl
  | [], _ :: _ => isFalse (fun h => List.noConfusion h)
  | _ :: _, [] => isFalse (fun h => List.noConfusion h)
  | (k1, v1) :: xs, (k2, v2) :: ys =>
    if hk : k1 = k2 then
      match Json.decEq v1 v2 with
      | isFalse h1 =>
        isFalse (fun hh => by
          injection hh with h3 h4
          exact h1 (congrArg Prod.snd h3))
      | isTrue h1 =>
        match Json.decEqFields xs ys with
        | isTrue h2 => isTrue (by rw [hk, h1, h2])
        | isFalse h2 => isFalse (fun hh => h2 (by injection hh))
    else
      isFalse (fun hh => by
        injection hh with h3 h4
        exact hk (congrArg Prod.fst h3))

end

instance : DecidableEq Json := Json.decEq

/-- Decidable equality on `Except` (not provided by the library). -/
instance {ε α : Type} [DecidableEq ε] [DecidableEq α] : DecidableEq (Except ε α)
  | Except.ok a, Except.ok b =>
    if h : a = b then isTrue (by rw [h]) else isFalse (fun hh => h (by injection hh))
  | Except.error a, Except.error b =>
    if h : a = b then isTrue (by rw [h]) else isFalse (fun hh => h (by injection hh))
  | Except.ok _, Except.error _ => isFalse (fun h => Except.noConfusion h)
  | Except.error _, Except.ok _ => isFalse (fun h => Except.noConfusion h)

/-- Python truthiness of a `Json` value: `None`, `False`, `0`, `""`,
empty list and empty dict are falsy. -/
def Json.truthy : Json → Bool
  | .null => false
  | .bool b => b
  | .num n => n != 0
  | .str s => s != ""
  | .arr l => !l.isEmpty
  | .obj l => !l.isEmpty

/-- Python truthiness of an optional value (`None` for `none`). -/
def py_truthy : Option Json → Bool
  | none => false
  | some j => j.truthy

/-- First-match association-list lookup (Python `dict` access / `dict.get`). -/
def lookupAssoc {α : Type} (l : List (String × α)) (k : String) : Option α :=
  (l.find? (fun p => p.1 == k)).map (fun p => p.2)

/-- Python `dict` assignment `d[k] = v`: replace in place if the key is
present (keeping its position), otherwise append at the end. -/
def dict_insert {α : Type} : List (String × α) → String → α → List (String × α)
  | [], k, v => [(k, v)]
  | (a, b) :: rest, k, v =>
    if a = k then (k, v) :: rest else (a, b) :: dict_insert rest k v

/-- `dict.get k` on a `Json` value: key lookup when the value is a dict,
`none` otherwise. -/
def objGet : Json → String → Option Json
  | .obj fields, k => lookupAssoc fields k
  | _, _ => none

/-! ### Model of `json.loads` -/

/-- JSON whitespace accepted between tokens. -/
def isJsonWs (c : Char) : Bool :=
  c = ' ' || c = '\t' || c = '\n' || c = '\r'

/-- Drop leading JSON whitespace. -/
def skipWs : List Char → List Char
  | [] => []
  | c :: rest => if isJsonWs c then skipWs rest else c :: rest

/-- The opening-brace character (`Char.ofNat 123`). -/
def lbrace : Char := Char.ofNat 123

/-- The closing-brace character (`Char.ofNat 125`). -/
def rbrace : Char := Char.ofNat 125

/-- Single-character JSON string escapes. -/
def escChar (c : Char) : Option Char :=
  if c = '"' then some '"'
  else if c = '\\' then some '\\'
  else if c = '/' then some '/'
  else if c = 'n' then some '\n'
  else if c = 't' then some '\t'
  else if c = 'r' then some '\r'
  else if c = 'b' then some (Char.ofNat 8)
  else if c = 'f' then some (Char.ofNat 12)
  else none

/-- Parse the body of a JSON string after the opening quote, up to the
closing quote.  Unescaped control characters are rejected, as in strict
`json.loads`. -/
def parseStrChars : List Char → Option (List Char × List Char)
  | [] => none
  | '"' :: rest => some ([], rest)
  | '\\' :: e :: rest =>
    match escChar e with
    | some c => (parseStrChars rest).map (fun p => (c :: p.1, p.2))
    | none => none
  | c :: rest =>
    if c.toNat < 32 then none
    else (parseStrChars rest).map (fun p => (c :: p.1, p.2))

/-- Parse a JSON integer literal (optional minus sign, no leading zeros).
Fractional and exponent parts are outside the model. -/
def parseIntToken (cs : List Char) : Option (Int × List Char) :=
  let signed := match cs with
    | '-' :: r => (true, r)
    | _ => (false, cs)
  let ds := signed.2.takeWhile Char.isDigit
  let rest := signed.2.dropWhile Char.isDigit
  match ds with
  | [] => none
  | ['0'] => some (0, rest)
  | '0' :: _ :: _ => none
  | _ =>
    let n : Nat := ds.foldl (fun a c => a * 10 + (c.toNat - 48)) 0
    some ((if signed.1 then -(n : Int) else (n : Int)), rest)

/-- Strip an expected literal prefix. -/
def stripPref : List Char → List Char → Option (List Char)
  | [], l => some l
  | p :: ps, c :: rest => if c = p then stripPref ps rest else none
  | _ :: _, [] => none

mutual

/-- Fuel-based recursive-descent JSON value parser. -/
def parseVal : Nat → List Char → Option (Json × List Char)
  | 0, _ => none
  | fuel + 1, cs0 =>
    match skipWs cs0 with
    | [] => none
    | c :: rest =>
      if c = '"' then
        (parseStrChars rest).map (fun p => (Json.str (String.mk p.1), p.2))
      else if c = lbrace then
        match skipWs rest with
        | [] => none
        | c2 :: r2 =>
          if c2 = rbrace then some (Json.obj [], r2)
          else
            match parseObjFields fuel (c2 :: r2) with
            | some (pairs, r3) =>
              some (Json.obj (pairs.foldl (fun d kv => dict_insert d kv.1 kv.2) []), r3)
            | none => none
      else if c = '[' then
        match skipWs rest with
        | [] => none
        | c2 :: r2 =>
          if c2 = ']' then some (Json.arr [], r2)
          else
            match parseArrElems fuel (c2 :: r2) with
            | some (vs, r3) => some (Json.arr vs, r3)
            | none => none
      else if c = 't' then
        (stripPref "true".data (c :: rest)).map (fun r => (Json.bool true, r))
      else if c = 'f' then
        (stripPref "false".data (c :: rest)).map (fun r => (Json.bool false, r))
      else if c = 'n' then
        (stripPref "null".data (c :: rest)).map (fun r => (Json.null, r))
      else if c = '-' || c.isDigit then
        (parseIntToken (c :: rest)).map (fun p => (Json.num p.1, p.2))
      else none

/-- Parse one or more comma-separated array elements up to `]`. -/
def parseArrElems : Nat → List Char → Option (List Json × List Char)
  | 0, _ => none
  | fuel + 1, cs =>
    match parseVal fuel cs with
    | none => none
    | some (v, rest) =>
      match skipWs rest with
      | ']' :: r2 => some ([v], r2)
      | ',' :: r2 =>
        match parseArrElems fuel r2 with
        | some (vs, r3) => some (v :: vs, r3)
        | none => none
      | _ => none

/-- Parse one or more comma-separated `"key": value` pairs up to the
closing brace. -/
def parseObjFields : Nat → List Char → Option (List (String × Json) × List Char)
  | 0, _ => none
  | fuel + 1, cs =>
    match skipWs cs with
    | '"' :: r1 =>
      match parseStrChars r1 with
      | none => none
      | some (kcs, r2) =>
        match skipWs r2 with
        | ':' :: r3 =>
          match parseVal fuel r3 with
          | none => none
          | some (v, r4) =>
            match skipWs r4 with
            | c :: r5 =>
              if c = ',' then
                match parseObjFields fuel r5 with
                | some (fs, r6) => some ((String.mk kcs, v) :: fs, r6)
                | none => none
              else if c = rbrace then some ([(String.mk kcs, v)], r5)
              else none
            | [] => none
        | _ => none
    | _ => none

end

/-- Model of `json.loads`: parse a complete JSON document (allowing
surrounding whitespace); `none` models a raised `JSONDecodeError`.
The fuel `2 * length + 2` exceeds any possible recursion depth. -/
def json_loads (s : String) : Option Json :=
  match parseVal (2 * s.data.length + 2) s.data with
  | some (v, rest) => if (skipWs rest).isEmpty then some v else none
  | none => none

/-! ### Model of `parse_claude_response` (claude_valuation.py lines 53-78) -/

/-- Split a character list at the first occurrence of a pattern, returning
the parts before and after the pattern. -/
def splitOnce (pat : List Char) : List Char → Option (List Char × List Char)
  | [] => if pat.isEmpty then some ([], []) else none
  | c :: rest =>
    if pat.isPrefixOf (c :: rest) then some ([], (c :: rest).drop pat.length)
    else (splitOnce pat rest).map (fun p => (c :: p.1, p.2))

/-- Group 1 of Python's `re.search` for the fenced-block pattern
(backtick-backtick-backtick `json` newline, a non-greedy group, newline
backtick-backtick-backtick, with DOTALL): the text between the first
occurrence of the opening marker and the first occurrence of the closing
marker after it.  (If the first opening marker has no closing marker after
it, no later opening marker can have one either, so this equals the
regex's leftmost-then-shortest match.) -/
def fenced_json_group (s : String) : Option String :=
  match splitOnce "```json\n".data s.data with
  | none => none
  | some q =>
    match splitOnce "\n```".data q.2 with
    | none => none
    | some p => some (String.mk p.1)

/-- Index of the last character satisfying `p` (Python `str.rfind`). -/
def rfindIdx (p : Char → Bool) (l : List Char) : Option Nat :=
  (l.reverse.findIdx? p).map (fun i => l.length - 1 - i)

/-- The substring from the first opening brace to the last closing brace
(inclusive), when both exist in that order (claude_valuation.py lines
67-72); `none` when the condition `start != -1 and end != -1 and
end > start` fails. -/
def brace_candidate (s : String) : Option String :=
  match s.data.findIdx? (fun c => c = lbrace), rfindIdx (fun c => c = rbrace) s.data with
  | some start, some stop =>
    if start < stop then some (String.mk ((s.data.drop start).take (stop + 1 - start)))
    else none
  | _, _ => none

/-- The designed fallback result: a dict with the single key
`raw_response` holding the verbatim input. -/
def raw_response_obj (s : String) : Json :=
  Json.obj [("raw_response", Json.str s)]

/-- Model of `parse_claude_response` (lines 53-78): try the fenced block,
then the first-brace-to-last-brace substring, then fall back to the
raw-response dict.  Deserialization failures select the next strategy. -/
def parse_claude_response (response_content : String) : Json :=
  let step1 : Option Json :=
    match fenced_json_group response_content with
    | some json_str => json_loads json_str
    | none => none
  match step1 with
  | some v => v
  | none =>
    match brace_candidate response_content with
    | some json_str =>
      match json_loads json_str with
      | some v => v
      | none => raw_response_obj response_content
    | none => raw_response_obj response_content

/-! ### Equipment records and fingerprints (lines 17-27)

claude_valuation.py never imports pandas (its imports are os, json,
anthropic, hashlib, dotenv, functools, tqdm, re, time), yet lines 22,
24, 106, 108 and 110 call `pd.isna(...)`.  `'X' in row` short-circuits
when the key is absent, but as soon as a row carries a `Year`,
`Location` or `Condition` key the corresponding guard evaluates
`pd.isna` and raises `NameError: name 'pd' is not defined`.  Raised
exceptions are modelled with `Except.error` carrying the Python
exception message `str(e)`. -/

/-- An equipment record (a dataframe row restricted to the fields the
pipeline reads).  `unit_id` and `description` are the required fields
`Unit #` and `Description`; an optional field is `none` exactly when the
column is absent from the row — a present key (whether or not its value
is NaN) reaches the `pd.isna` call, which raises.  Field values are
modelled by their interpolated string rendering. -/
structure Row where
  unit_id : String
  description : String
  year : Option String
  location : Option String
  condition : Option String
deriving DecidableEq

/-- `str(e)` of the `NameError` raised by every `pd.isna` guard, since
`pd` is an unresolved name in this module. -/
def pd_nameerror : String := "name 'pd' is not defined"

/-- The concatenation built by `get_equipment_hash` (lines 19-25):
`Unit #` and `Description` joined by a bar.  The `Year`/`Condition`
appends at lines 23 and 25 are unreachable: when either key is present,
the guard at line 22 or 24 evaluates `pd.isna` and raises `NameError`
first. -/
def equipment_item_str (row : Row) : Except String String :=
  let item_str := row.unit_id ++ "|" ++ row.description
  if row.year.isSome then Except.error pd_nameerror
  else if row.condition.isSome then Except.error pd_nameerror
  else Except.ok item_str

/-- Model of `get_equipment_hash` (lines 17-27): the hex digest of the
identity concatenation, or the `NameError` when the row carries a `Year`
or `Condition` key.  `hashlib.md5(...).hexdigest()` is abstracted as the
parameter `md5hex`, so every statement holds for an arbitrary digest
function. -/
def get_equipment_hash (md5hex : String → String) (row : Row) : Except String String :=
  (equipment_item_str row).map md5hex

/-! ### The result cache (lines 29-51) -/

/-- The mutable cache state: `disk` models the `./cache` directory (one
deserialized entry per fingerprint; a missing or corrupt file is an
absent entry), and `memo` models the `functools.lru_cache(maxsize=1000)`
memoization of `get_cached_valuation`, most recently used first.  Note
the memo stores the *returned* value, including `none` for misses. -/
structure CacheState where
  disk : List (String × Json)
  memo : List (String × Option Json)
deriving DecidableEq

/-- A fresh run over an empty `./cache` directory. -/
def CacheState.empty : CacheState := ⟨[], []⟩

/-- Model of `get_cached_valuation` (lines 29-42) including its
`lru_cache` decorator: a memoized argument returns the memoized value
(refreshing its recency); otherwise the disk entry (or `none`) is
returned and memoized, evicting the least recently used entry beyond
1000. -/
def get_cached_valuation (s : CacheState) (equipment_hash : String) :
    Option Json × CacheState :=
  match lookupAssoc s.memo equipment_hash with
  | some v =>
    (v, { s with memo := (equipment_hash, v) :: s.memo.filter (fun p => p.1 != equipment_hash) })
  | none =>
    let v := lookupAssoc s.disk equipment_hash
    (v, { s with memo := ((equipment_hash, v) :: s.memo).take 1000 })

/-- Model of `save_to_cache` (lines 44-51): serialize and persist the
result under the fingerprint, overwriting any existing entry.  The memo
of `get_cached_valuation` is *not* touched. -/
def save_to_cache (s : CacheState) (equipment_hash : String) (result : Json) : CacheState :=
  { s with disk := dict_insert s.disk equipment_hash result }

/-! ### The valuation client (lines 80-168)

The Anthropic API call of one attempt is abstracted as
`client : Nat → Except String String` mapping the attempt index to the
response text (`Except.ok`) or the exception message (`Except.error`).
The prompt (lines 98-135) only feeds that call, so it is absorbed into
the stub.  A run returns the result, the final cache state, the number
of client invocations, and the list of `time.sleep` durations. -/

/-- The retry loop of `process_equipment_item` (lines 137-168):
`max_retries = 3` attempts, `retry_delay = 2` doubling after each failed
non-final attempt.  On a successful attempt the parsed response is saved
to the cache and returned; the failure of the final attempt returns an
`error` dict without caching. -/
def attempt_loop (client : Nat → Except String String) (item_hash : String) :
    List Nat → Nat → CacheState → Nat → List Nat → Json × CacheState × Nat × List Nat
  | [], _, s, calls, sleeps => (Json.null, s, calls, sleeps)
  | attempt :: rest, retry_delay, s, calls, sleeps =>
    match client attempt with
    | Except.ok text =>
      let result := parse_claude_response text
      (result, save_to_cache s item_hash result, calls + 1, sleeps)
    | Except.error e =>
      match rest with
      | [] => (Json.obj [("error", Json.str e)], s, calls + 1, sleeps)
      | _ :: _ =>
        attempt_loop client item_hash rest (retry_delay * 2) s (calls + 1) (sleeps ++ [retry_delay])

/-- The cache-miss continuation of `process_equipment_item`: the prompt
construction of lines 98-135 runs first, and its optional-field guards
(lines 106, 108, 110) each evaluate `pd.isna` when the key is present,
raising `NameError` *outside* the `try` — before any attempt.  Only then
does the retry loop run.  A raised exception carries the state at the
raise (the lookup has already updated the memo). -/
def process_item_miss (client : Nat → Except String String) (row : Row)
    (item_hash : String) (s1 : CacheState) :
    Except (String × CacheState) (Json × CacheState × Nat × List Nat) :=
  if row.year.isSome then Except.error (pd_nameerror, s1)
  else if row.location.isSome then Except.error (pd_nameerror, s1)
  else if row.condition.isSome then Except.error (pd_nameerror, s1)
  else Except.ok (attempt_loop client item_hash (List.range 3) 2 s1 0 [])

/-- Model of `process_equipment_item` (lines 80-168): fingerprint (line
91, outside any `try` — a row with a `Year` or `Condition` key raises
here, before the cache is consulted), cache lookup (returning the cached
value when it is truthy, *before* the prompt is built — so a `Location`
key does not prevent a truthy cache hit), then prompt construction and
the retry loop.  `Except.error` carries the `NameError` message and the
state at the raise. -/
def process_equipment_item (client : Nat → Except String String) (md5hex : String → String)
    (row : Row) (s : CacheState) :
    Except (String × CacheState) (Json × CacheState × Nat × List Nat) :=
  match get_equipment_hash md5hex row with
  | Except.error e => Except.error (e, s)
  | Except.ok item_hash =>
    let looked := get_cached_valuation s item_hash
    match looked.1 with
    | some cached_result =>
      if cached_result.truthy then Except.ok (cached_result, looked.2, 0, [])
      else process_item_miss client row item_hash looked.2
    | none => process_item_miss client row item_hash looked.2

/-! ### The batch orchestrator (lines 170-194) -/

/-- Model of `df.head(n)`: the first `n` rows for nonnegative `n`, all
rows but the last `-n` for negative `n`. -/
def df_head (df : List Row) (n : Int) : List Row :=
  if 0 ≤ n then df.take n.toNat else df.take (df.length - (-n).toNat)

/-- The sequential loop of `process_equipment_list` (lines 186-192):
process each row in order, writing `results[unit_id] = result`.  The
client stub takes the position of the row in the processed list first.
A `NameError` raised inside `process_equipment_item` propagates out of
the loop (there is no `try` here), aborting the whole batch and
discarding the partial `results` dict; `Except.error` carries the
message and the state at the raise.  (The fixed `time.sleep(0.5)` after
each row and the progress bar are observability and timing concerns
with no further effect on the state.) -/
def process_list_go (clients : Nat → Nat → Except String String) (md5hex : String → String) :
    List Row → Nat → List (String × Json) × CacheState →
      Except (String × CacheState) (List (String × Json) × CacheState)
  | [], _, acc => Except.ok acc
  | row :: rest, idx, (results, s) =>
    match process_equipment_item (clients idx) md5hex row s with
    | Except.error e => Except.error e
    | Except.ok (result, s2, _, _) =>
      process_list_go clients md5hex rest (idx + 1)
        (dict_insert results row.unit_id result, s2)

/-- Model of `process_equipment_list` (lines 170-194): truncate via
`df.head(max_items) if max_items else df` (Python truthiness: both `None`
and `0` select the whole input), then run the sequential loop. -/
def process_equipment_list (clients : Nat → Nat → Except String String)
    (md5hex : String → String) (df : List Row) (max_items : Option Int) (s : CacheState) :
    Except (String × CacheState) (List (String × Json) × CacheState) :=
  let process_df := match max_items with
    | some n => if n = 0 then df else df_head df n
    | none => df
  process_list_go clients md5hex process_df 0 ([], s)

/-! ### The enhancement pass (lines 196-256) -/

/-- Model of `enhance_valuation` (lines 196-256).  The single API call is
abstracted as `clientResp : Except String String` (no retry loop here);
the enhancement prompt of lines 208-225 uses `row.get('Location', ...)`
and the required fields only, so it cannot raise.  The whole body sits
in one `try`: on an exception the prior result is preserved under
`original_valuation`.  On a parse that is a dict without a truthy
`error` value, the `enhanced_analysis` field is filled from
`justification` (default the empty string) when absent, and then line
248 calls `get_equipment_hash` *inside* the `try`: for a row with a
`Year` or `Condition` key this raises `NameError`, caught by the
`except`, so the result is the exception dict and nothing is cached;
otherwise the result is cached under the suffixed fingerprint and
returned.  An unusable parse returns a bare failure dict. -/
def enhance_valuation (clientResp : Except String String) (md5hex : String → String)
    (initial_valuation : Json) (row : Row) (s : CacheState) : Json × CacheState :=
  match clientResp with
  | Except.error e =>
    (Json.obj [("error", Json.str e), ("original_valuation", initial_valuation)], s)
  | Except.ok text =>
    let enhanced := parse_claude_response text
    match enhanced with
    | Json.obj fields =>
      if py_truthy (lookupAssoc fields "error") then
        (Json.obj [("error", Json.str "Failed to enhance valuation")], s)
      else
        let fields2 :=
          if (lookupAssoc fields "enhanced_analysis").isSome then fields
          else dict_insert fields "enhanced_analysis"
                 ((lookupAssoc fields "justification").getD (Json.str ""))
        match get_equipment_hash md5hex row with
        | Except.error e =>
          (Json.obj [("error", Json.str e), ("original_valuation", initial_valuation)], s)
        | Except.ok base_hash =>
          let item_hash := base_hash ++ "_enhanced"
          (Json.obj fields2, save_to_cache s item_hash (Json.obj fields2))
    | _ => (Json.obj [("error", Json.str "Failed to enhance valuation")], s)

/-! ### Concrete fixtures used in closed statements -/

/-- A minimal record with only the required identity fields. -/
def rowX : Row := ⟨"A1", "Dozer", none, none, none⟩

/-- A response text whose first fenced block is not valid JSON, followed by
a second fenced block that is, with a stray closing brace at the end. -/
def c5_block : String := "\x7b\"a\": 1\x7d"

/-- See `c5_block`: the first fenced group is the invalid `\x7boops`. -/
def c5_text : String :=
  "```json\n\x7boops\n```\nmid\n```json\n" ++ c5_block ++ "\n```\nmore \x7d"

/-- A response text whose (unique, hence first) fenced block is valid
JSON, with brace-delimited noise elsewhere. -/
def c5w_text : String :=
  "noise \x7bnot json\x7d\n```json\n\x7b\"new_value\": 50000\x7d\n```\n done"

/-- A three-record batch input. -/
def dfw3 : List Row :=
  [⟨"A", "d1", none, none, none⟩, ⟨"B", "d2", none, none, none⟩,
   ⟨"C", "d3", none, none, none⟩]

/-! ### Helper lemmas -/

/-- `get_cached_valuation` only touches the memo: the disk is unchanged. -/
theorem get_cached_valuation_disk (s : CacheState) (h : String) :
    ((get_cached_valuation s h).2).disk = s.disk := by
  unfold get_cached_valuation
  cases lookupAssoc s.memo h <;> simp

/-- A computed fingerprint certifies that the row carries no `Year` or
`Condition` key (otherwise `get_equipment_hash` raises) and is the
digest of `unit_id|description`. -/
theorem get_equipment_hash_ok (md5hex : String → String) (row : Row) (h : String)
    (hh : get_equipment_hash md5hex row = Except.ok h) :
    row.year = none ∧ row.condition = none ∧
      h = md5hex (row.unit_id ++ "|" ++ row.description) := by
  unfold get_equipment_hash equipment_item_str at hh
  cases hy : row.year with
  | some y => rw [hy] at hh; simp [Except.map] at hh
  | none =>
    cases hc : row.condition with
    | some c => rw [hy, hc] at hh; simp [Except.map] at hh
    | none =>
      rw [hy, hc] at hh
      simp only [Option.isSome_none, Bool.false_eq_true, if_false, Except.map] at hh
      exact ⟨rfl, rfl, (Except.ok.inj hh).symm⟩

/-- A row carrying a `Year` or `Condition` key makes `get_equipment_hash`
raise the `NameError` (pandas is never imported). -/
theorem hash_nameerror (md5hex : String → String) (row : Row)
    (hrow : (row.year.isSome || row.condition.isSome) = true) :
    get_equipment_hash md5hex row = Except.error pd_nameerror := by
  cases hy : row.year with
  | some y => simp [get_equipment_hash, equipment_item_str, hy, Except.map]
  | none =>
    rw [hy] at hrow
    simp only [Option.isSome_none, Bool.false_or] at hrow
    simp [get_equipment_hash, equipment_item_str, hy, hrow, Except.map]

/-- On a computed fingerprint, no `Location` key, and a falsy cache
lookup, `process_equipment_item` runs the retry loop on the state left
by the lookup. -/
theorem process_miss_eq (client : Nat → Except String String) (md5hex : String → String)
    (row : Row) (s : CacheState) (item_hash : String)
    (hhash : get_equipment_hash md5hex row = Except.ok item_hash)
    (hl : row.location = none)
    (hmiss : py_truthy (get_cached_valuation s item_hash).1 = false) :
    process_equipment_item client md5hex row s =
      Except.ok (attempt_loop client item_hash [0, 1, 2] 2
        (get_cached_valuation s item_hash).2 0 []) := by
  obtain ⟨hy, hc, -⟩ := get_equipment_hash_ok md5hex row item_hash hhash
  unfold process_equipment_item
  rw [hhash]
  have hr : List.range 3 = [0, 1, 2] := rfl
  cases hlk : (get_cached_valuation s item_hash).1 with
  | none => simp [hlk, process_item_miss, hy, hl, hc, hr]
  | some v =>
    rw [hlk] at hmiss
    simp only [py_truthy] at hmiss
    simp [hlk, hmiss, process_item_miss, hy, hl, hc, hr]

/-- A record without any optional-field key is processed without raising,
from any state. -/
theorem process_item_ok (client : Nat → Except String String) (md5hex : String → String)
    (row : Row) (s : CacheState)
    (hy : row.year = none) (hl : row.location = none) (hc : row.condition = none) :
    (process_equipment_item client md5hex row s).isOk = true := by
  unfold process_equipment_item
  rw [show get_equipment_hash md5hex row =
      Except.ok (md5hex (row.unit_id ++ "|" ++ row.description)) from by
    simp [get_equipment_hash, equipment_item_str, hy, hc, Except.map]]
  cases hlk : (get_cached_valuation s (md5hex (row.unit_id ++ "|" ++ row.description))).1 with
  | some v =>
    by_cases hv : v.truthy <;>
      simp [hlk, hv, process_item_miss, hy, hl, hc, Except.isOk, Except.toBool]
  | none => simp [hlk, process_item_miss, hy, hl, hc, Except.isOk, Except.toBool]

/-- Looking up the key just inserted by `dict_insert` yields the new value. -/
theorem lookup_dict_insert_self {α : Type} (d : List (String × α)) (k : String) (v : α) :
    lookupAssoc (dict_insert d k v) k = some v := by
  induction d with
  | nil => simp [dict_insert, lookupAssoc]
  | cons p rest ih =>
    by_cases h : p.1 = k
    · simp [dict_insert, h, lookupAssoc]
    · simpa [dict_insert, h, lookupAssoc] using ih

/-- `dict_insert` adds exactly the inserted key to the key set. -/
theorem mem_dict_insert_keys {α : Type} (d : List (String × α)) (k u : String) (v : α) :
    k ∈ (dict_insert d u v).map Prod.fst ↔ k ∈ d.map Prod.fst ∨ k = u := by
  induction d with
  | nil => simp [dict_insert]
  | cons p rest ih =>
    by_cases h : p.1 = u
    · subst h
      simp [dict_insert]
      tauto
    · simp [dict_insert, h, ih]
      tauto

/-- Over rows without optional-field keys the batch loop completes, and
the keys it accumulates are the initial keys together with the unit ids
of the processed rows. -/
theorem process_list_go_ok_keys (clients : Nat → Nat → Except String String)
    (md5hex : String → String) (rows : List Row) (idx : Nat)
    (results : List (String × Json)) (s : CacheState)
    (hrows : ∀ row ∈ rows, row.year = none ∧ row.location = none ∧ row.condition = none) :
    (process_list_go clients md5hex rows idx (results, s)).isOk = true ∧
    ∀ res s2, process_list_go clients md5hex rows idx (results, s) = Except.ok (res, s2) →
      ∀ k, k ∈ res.map Prod.fst ↔ k ∈ results.map Prod.fst ∨ k ∈ rows.map Row.unit_id := by
  induction rows generalizing idx results s with
  | nil =>
    constructor
    · simp [process_list_go, Except.isOk, Except.toBool]
    · intro res s2 heq k
      simp only [process_list_go, Except.ok.injEq, Prod.mk.injEq] at heq
      rw [← heq.1]
      simp
  | cons row rest ih =>
    obtain ⟨hy, hl, hc⟩ := hrows row (by simp)
    have hok := process_item_ok (clients idx) md5hex row s hy hl hc
    cases hstep : process_equipment_item (clients idx) md5hex row s with
    | error e => rw [hstep] at hok; simp [Except.isOk, Except.toBool] at hok
    | ok out =>
      obtain ⟨r, s2, calls, sleeps⟩ := out
      have hrest : ∀ row2 ∈ rest,
          row2.year = none ∧ row2.location = none ∧ row2.condition = none :=
        fun row2 hm => hrows row2 (by simp [hm])
      have ihh := ih (idx + 1) (dict_insert results row.unit_id r) s2 hrest
      have hred : process_list_go clients md5hex (row :: rest) idx (results, s) =
          process_list_go clients md5hex rest (idx + 1)
            (dict_insert results row.unit_id r, s2) := by
        simp [process_list_go, hstep]
      constructor
      · rw [hred]; exact ihh.1
      · intro res s3 heq k
        rw [hred] at heq
        rw [ihh.2 res s3 heq k]
        simp only [mem_dict_insert_keys, List.map_cons, List.mem_cons]
        tauto

/-! ### Claim C5 -/

/-- Claim C5, corrected: the fenced-block strategy only ever considers the
*first* fenced `json` block of the text.  When that first block
deserializes successfully, `parse_claude_response` returns exactly its
deserialized contents, ignoring any brace-delimited substring elsewhere;
the brace-delimited strategy is reached only when no fenced block exists
or the first one fails to deserialize. -/
theorem claim_C5_amended (s g : String) (v : Json)
    (h1 : fenced_json_group s = some g) (h2 : json_loads g = some v) :
    parse_claude_response s = v := by
  simp only [parse_claude_response, h1, h2]

/-- Witness for `claim_C5_amended`: a concrete text whose unique fenced
block deserializes; the parser returns that block's contents even though
brace-delimited noise occurs earlier in the text. -/
theorem claim_C5_amended_witness :
    fenced_json_group c5w_text = some "\x7b\"new_value\": 50000\x7d" ∧
    parse_claude_response c5w_text = Json.obj [("new_value", Json.num 50000)] :=
  ⟨by decide, claim_C5_amended c5w_text "\x7b\"new_value\": 50000\x7d"
    (Json.obj [("new_value", Json.num 50000)]) (by decide) (by decide)⟩

/-- Counterexample to claim C5 as stated: `c5_text` contains (by
construction, as its visible concatenand) the fenced `json` block
`c5_block`, whose contents deserialize successfully, yet the parser
returns the raw-response fallback — because the *first* fenced block
fails to deserialize and the brace-to-brace substring then also fails.
So "containing a fenced json code block whose contents deserialize
successfully" does not imply that block's contents are returned. -/
theorem claim_C5_counterexample :
    json_loads c5_block = some (Json.obj [("a", Json.num 1)]) ∧
    parse_claude_response c5_text = raw_response_obj c5_text ∧
    raw_response_obj c5_text ≠ Json.obj [("a", Json.num 1)] := by
  refine ⟨by decide, by decide, by decide⟩

/-! ### Claim C6 -/

/-- Claim C6, confirmed: `parse_claude_response` is a total function (it
is a Lean `def`, so it never raises), and whenever the first fenced
block's contents (if any) fail to deserialize and the brace-to-brace
substring (if any) also fails to deserialize, it returns exactly the
dict mapping `raw_response` to the verbatim input. -/
theorem claim_C6_fallback (s : String)
    (h1 : ∀ g, fenced_json_group s = some g → json_loads g = none)
    (h2 : ∀ t, brace_candidate s = some t → json_loads t = none) :
    parse_claude_response s = raw_response_obj s := by
  unfold parse_claude_response
  cases hf : fenced_json_group s with
  | none =>
    cases hb : brace_candidate s with
    | none => simp
    | some t => simp [h2 t hb]
  | some g =>
    cases hb : brace_candidate s with
    | none => simp [h1 g hf]
    | some t => simp [h1 g hf, h2 t hb]

/-- Witness for `claim_C6_fallback` on a concrete unstructured text. -/
theorem claim_C6_fallback_witness :
    parse_claude_response "no structured content here" =
      raw_response_obj "no structured content here" :=
  claim_C6_fallback "no structured content here"
    (fun g hg => by
      rw [show fenced_json_group "no structured content here" = none from by decide] at hg
      exact Option.noConfusion hg)
    (fun t ht => by
      rw [show brace_candidate "no structured content here" = none from by decide] at ht
      exact Option.noConfusion ht)

/-! ### Claim C7 -/

/-- Claim C7, corrected: the source computes a fingerprint only for
records without `Year` and `Condition` keys — for any record carrying
one, `get_equipment_hash` raises `NameError` (pandas is never imported),
so those identity fields can never influence a fingerprint.  On the
crash-free domain, records with identical `unit_id` and `description`
(`location` may differ) receive the same fingerprint, for any digest
function; the distinctness half fails even there (see the
counterexample). -/
theorem claim_C7_amended (md5hex : String → String) :
    (∀ r1 r2 : Row, r1.unit_id = r2.unit_id → r1.description = r2.description →
        r1.year = none → r1.condition = none → r2.year = none → r2.condition = none →
      get_equipment_hash md5hex r1 = get_equipment_hash md5hex r2) ∧
    (∀ row : Row, (row.year.isSome || row.condition.isSome) = true →
      get_equipment_hash md5hex row = Except.error pd_nameerror) := by
  constructor
  · intro r1 r2 h1 h2 hy1 hc1 hy2 hc2
    simp [get_equipment_hash, equipment_item_str, h1, h2, hy1, hc1, hy2, hc2]
  · intro row hrow
    exact hash_nameerror md5hex row hrow

/-- Witness for `claim_C7_amended`: records differing only in location
get the same fingerprint; a record with a `Year` key raises. -/
theorem claim_C7_amended_witness :
    get_equipment_hash id ⟨"U1", "Excavator", none, some "TX", none⟩ =
      get_equipment_hash id ⟨"U1", "Excavator", none, some "NV", none⟩ ∧
    get_equipment_hash id ⟨"U1", "Excavator", some "2001", none, none⟩ =
      Except.error pd_nameerror :=
  ⟨(claim_C7_amended id).1 _ _ rfl rfl rfl rfl rfl rfl,
   (claim_C7_amended id).2 ⟨"U1", "Excavator", some "2001", none, none⟩ (by decide)⟩

/-- Counterexample to the distinctness half of claim C7, on records the
source actually hashes (no optional keys): `unit_id` "A|B" with
description "C" and `unit_id` "A" with description "B|C" build the same
bar-delimited identity string, hence the same fingerprint under *any*
digest, while differing in the identity-relevant `unit_id` field. -/
theorem claim_C7_counterexample :
    equipment_item_str ⟨"A|B", "C", none, none, none⟩ =
      equipment_item_str ⟨"A", "B|C", none, none, none⟩ ∧
    get_equipment_hash id ⟨"A|B", "C", none, none, none⟩ =
      get_equipment_hash id ⟨"A", "B|C", none, none, none⟩ ∧
    (Row.mk "A|B" "C" none none none).unit_id ≠
      (Row.mk "A" "B|C" none none none).unit_id := by
  refine ⟨by decide, by decide, by decide⟩

/-! ### Claim C2 -/

/-- Claim C2, corrected: for a record whose fingerprint is computed at
all (no `Year`/`Condition` key — otherwise the source raises `NameError`
at line 91 before the cache is consulted), when the cache lookup returns
a stored value that is *truthy* (Python truthiness — in particular a
non-empty dict), `process_equipment_item` returns it immediately, with
zero client invocations and no sleeps.  The record may carry a
`Location` key: the truthy hit returns before the prompt guards of
lines 106-111 run.  (A falsy stored value, such as the empty dict, is
treated as a miss; see the counterexample.) -/
theorem claim_C2_amended (client : Nat → Except String String) (md5hex : String → String)
    (row : Row) (s s2 : CacheState) (item_hash : String) (v : Json)
    (hhash : get_equipment_hash md5hex row = Except.ok item_hash)
    (hhit : get_cached_valuation s item_hash = (some v, s2))
    (hv : v.truthy = true) :
    process_equipment_item client md5hex row s = Except.ok (v, s2, 0, []) := by
  unfold process_equipment_item
  rw [hhash]
  simp [hhit, hv]

/-- Witness for `claim_C2_amended`: a stored non-empty valuation is
returned as-is with no client call — even for a record carrying a
`Location` key, since the hit precedes the prompt construction. -/
theorem claim_C2_amended_witness :
    (Json.obj [("new_value", Json.num 42000)]).truthy = true ∧
    process_equipment_item (fun _ => Except.error "x") id
        ⟨"A1", "Dozer", none, some "TX", none⟩
        ⟨[("A1|Dozer", Json.obj [("new_value", Json.num 42000)])], []⟩ =
      Except.ok (Json.obj [("new_value", Json.num 42000)],
        ⟨[("A1|Dozer", Json.obj [("new_value", Json.num 42000)])],
         [("A1|Dozer", some (Json.obj [("new_value", Json.num 42000)]))]⟩, 0, []) :=
  ⟨by decide,
   claim_C2_amended (fun _ => Except.error "x") id
     ⟨"A1", "Dozer", none, some "TX", none⟩ _ _ "A1|Dozer"
     (Json.obj [("new_value", Json.num 42000)]) (by decide) (by decide) (by decide)⟩

/-- Counterexample to claim C2 as stated: the cache lookup for the
record's fingerprint *returns a stored value* (the empty dict, which a
previous run can legitimately have persisted from a response whose JSON
was empty), yet `process_equipment_item` does not return it: the empty
dict is falsy under Python truthiness, so the code proceeds to make one
external call and returns the new parse instead. -/
theorem claim_C2_counterexample :
    get_equipment_hash id rowX = Except.ok "A1|Dozer" ∧
    (get_cached_valuation ⟨[("A1|Dozer", Json.obj [])], []⟩ "A1|Dozer").1 =
      some (Json.obj []) ∧
    process_equipment_item (fun _ => Except.ok "hello \x7b\"v\": 2\x7d") id rowX
        ⟨[("A1|Dozer", Json.obj [])], []⟩ =
      Except.ok (Json.obj [("v", Json.num 2)],
        ⟨[("A1|Dozer", Json.obj [("v", Json.num 2)])],
         [("A1|Dozer", some (Json.obj []))]⟩, 1, []) := by
  refine ⟨by decide, by decide, by decide⟩

/-! ### Claim C4 -/

/-- Claim C4, confirmed on the domain where the retry loop is reachable
(a record without optional-field keys bearing on this path: a computed
fingerprint and no `Location` key — otherwise the source raises
`NameError` before any attempt): on a cache miss the client is invoked
at most 3 times.  If attempt `k` succeeds the parsed response is
returned (and each of the `k` earlier failures was followed by a wait,
2 then 4 time units); if all three attempts fail, the result is the
`error` dict built from the last exception message, with no further
retry and exactly the waits 2 and 4 recorded. -/
theorem claim_C4_retry (client : Nat → Except String String) (md5hex : String → String)
    (row : Row) (s : CacheState) (item_hash : String)
    (hhash : get_equipment_hash md5hex row = Except.ok item_hash)
    (hl : row.location = none)
    (hmiss : py_truthy (get_cached_valuation s item_hash).1 = false) :
    (∀ t, client 0 = Except.ok t →
      process_equipment_item client md5hex row s =
        Except.ok (parse_claude_response t,
          save_to_cache (get_cached_valuation s item_hash).2 item_hash
            (parse_claude_response t), 1, [])) ∧
    (∀ e0 t, client 0 = Except.error e0 → client 1 = Except.ok t →
      process_equipment_item client md5hex row s =
        Except.ok (parse_claude_response t,
          save_to_cache (get_cached_valuation s item_hash).2 item_hash
            (parse_claude_response t), 2, [2])) ∧
    (∀ e0 e1 t, client 0 = Except.error e0 → client 1 = Except.error e1 →
        client 2 = Except.ok t →
      process_equipment_item client md5hex row s =
        Except.ok (parse_claude_response t,
          save_to_cache (get_cached_valuation s item_hash).2 item_hash
            (parse_claude_response t), 3, [2, 4])) ∧
    (∀ e0 e1 e2, client 0 = Except.error e0 → client 1 = Except.error e1 →
        client 2 = Except.error e2 →
      process_equipment_item client md5hex row s =
        Except.ok (Json.obj [("error", Json.str e2)],
          (get_cached_valuation s item_hash).2, 3, [2, 4])) := by
  have hp := process_miss_eq client md5hex row s item_hash hhash hl hmiss
  refine ⟨?_, ?_, ?_, ?_⟩ <;> intros <;> rw [hp] <;> simp [attempt_loop, *]

/-- Witness for `claim_C4_retry`: the spec's stub that fails twice then
succeeds — the successful result is returned, the client was invoked
exactly 3 times, and the waits doubled (2 then 4). -/
theorem claim_C4_retry_witness :
    process_equipment_item
        (fun n => if n < 2 then Except.error "boom" else Except.ok "\x7b\"a\": 1\x7d")
        id rowX CacheState.empty =
      Except.ok (Json.obj [("a", Json.num 1)],
        ⟨[("A1|Dozer", Json.obj [("a", Json.num 1)])], [("A1|Dozer", none)]⟩, 3, [2, 4]) :=
  ((claim_C4_retry
      (fun n => if n < 2 then Except.error "boom" else Except.ok "\x7b\"a\": 1\x7d")
      id rowX CacheState.empty "A1|Dozer" (by decide) rfl (by decide)).2.2.1
      "boom" "boom" "\x7b\"a\": 1\x7d" rfl rfl rfl).trans (by decide)

/-! ### Claim C1 -/

/-- Claim C1, corrected, on the domain where the attempt loop is reached
(computed fingerprint, no `Location` key, falsy lookup): the `error`
dict produced by exhausting the retries is indeed never written to the
cache — the disk is unchanged, so a fingerprint with no entry still has
none.  But a successfully *parsed* response is persisted
unconditionally, with no check for an `error` key (see the
counterexample), so "persisted only if the parsed result has no error
key" does not hold. -/
theorem claim_C1_amended (client : Nat → Except String String) (md5hex : String → String)
    (row : Row) (s : CacheState) (item_hash : String)
    (hhash : get_equipment_hash md5hex row = Except.ok item_hash)
    (hl : row.location = none)
    (hmiss : py_truthy (get_cached_valuation s item_hash).1 = false) :
    (∀ e0 e1 e2, client 0 = Except.error e0 → client 1 = Except.error e1 →
        client 2 = Except.error e2 →
      process_equipment_item client md5hex row s =
        Except.ok (Json.obj [("error", Json.str e2)],
          (get_cached_valuation s item_hash).2, 3, [2, 4]) ∧
      ((get_cached_valuation s item_hash).2).disk = s.disk) ∧
    (∀ t, client 0 = Except.ok t →
      process_equipment_item client md5hex row s =
        Except.ok (parse_claude_response t,
          save_to_cache (get_cached_valuation s item_hash).2 item_hash
            (parse_claude_response t), 1, []) ∧
      (save_to_cache (get_cached_valuation s item_hash).2 item_hash
          (parse_claude_response t)).disk =
        dict_insert s.disk item_hash (parse_claude_response t)) ∧
    (∀ e0 t, client 0 = Except.error e0 → client 1 = Except.ok t →
      process_equipment_item client md5hex row s =
        Except.ok (parse_claude_response t,
          save_to_cache (get_cached_valuation s item_hash).2 item_hash
            (parse_claude_response t), 2, [2]) ∧
      (save_to_cache (get_cached_valuation s item_hash).2 item_hash
          (parse_claude_response t)).disk =
        dict_insert s.disk item_hash (parse_claude_response t)) ∧
    (∀ e0 e1 t, client 0 = Except.error e0 → client 1 = Except.error e1 →
        client 2 = Except.ok t →
      process_equipment_item client md5hex row s =
        Except.ok (parse_claude_response t,
          save_to_cache (get_cached_valuation s item_hash).2 item_hash
            (parse_claude_response t), 3, [2, 4]) ∧
      (save_to_cache (get_cached_valuation s item_hash).2 item_hash
          (parse_claude_response t)).disk =
        dict_insert s.disk item_hash (parse_claude_response t)) := by
  have hp := process_miss_eq client md5hex row s item_hash hhash hl hmiss
  refine ⟨?_, ?_, ?_, ?_⟩ <;> intros <;>
    refine ⟨by rw [hp]; simp [attempt_loop, *],
      by simp [save_to_cache, get_cached_valuation_disk]⟩

/-- Witness for `claim_C1_amended`: three failures leave the (empty) disk
cache untouched and surface the last error message. -/
theorem claim_C1_amended_witness :
    process_equipment_item (fun _ => Except.error "down") id rowX CacheState.empty =
      Except.ok (Json.obj [("error", Json.str "down")],
        (get_cached_valuation CacheState.empty "A1|Dozer").2, 3, [2, 4]) ∧
    ((get_cached_valuation CacheState.empty "A1|Dozer").2).disk = CacheState.empty.disk :=
  (claim_C1_amended (fun _ => Except.error "down") id rowX CacheState.empty
    "A1|Dozer" (by decide) rfl (by decide)).1 "down" "down" "down" rfl rfl rfl

/-- Counterexample to claim C1 as stated: a response whose fenced JSON
carries an `error` key parses successfully, and `process_equipment_item`
both returns that `error`-bearing result *and* persists it under the
record's fingerprint "A1|Dozer" — the code saves the parse
unconditionally. -/
theorem claim_C1_counterexample :
    get_equipment_hash id rowX = Except.ok "A1|Dozer" ∧
    process_equipment_item
        (fun _ => Except.ok "```json\n\x7b\"error\": \"boom\"\x7d\n```")
        id rowX CacheState.empty =
      Except.ok (Json.obj [("error", Json.str "boom")],
        ⟨[("A1|Dozer", Json.obj [("error", Json.str "boom")])],
         [("A1|Dozer", none)]⟩, 1, []) ∧
    lookupAssoc [("A1|Dozer", Json.obj [("error", Json.str "boom")])] "A1|Dozer" =
      some (Json.obj [("error", Json.str "boom")]) := by
  refine ⟨by decide, by decide, by decide⟩

/-! ### Claim C3 -/

/-- Claim C3 is right and the code is wrong (code bug): in the reachable
state left by a prior miss lookup — exactly what `process_equipment_item`
produces before its first save — `save_to_cache(f, r)` followed by
`get_cached_valuation(f)` returns `none`, not `r`: the
`functools.lru_cache` memo on `get_cached_valuation` memoized the earlier
miss and `save_to_cache` never invalidates it.  The second conjunct shows
the entry *is* on disk, so it is precisely the memo that hides it. -/
theorem claim_C3_code_bug_eval :
    (get_cached_valuation
        (save_to_cache (get_cached_valuation CacheState.empty "f1").2 "f1"
          (Json.obj [("new_value", Json.num 42000)])) "f1").1 = none ∧
    lookupAssoc
      (save_to_cache (get_cached_valuation CacheState.empty "f1").2 "f1"
        (Json.obj [("new_value", Json.num 42000)])).disk "f1" =
      some (Json.obj [("new_value", Json.num 42000)]) := by
  refine ⟨by decide, by decide⟩

/-! ### Claim C8 -/

/-- Claim C8, corrected: for every *positive* limit `n`, over records
without optional-field keys (a single `Year`/`Location`/`Condition` key
makes `process_equipment_item` raise `NameError` inside the loop, which
has no `try`, aborting the whole batch), the batch run processes exactly
the first `n` records (a prefix in input order), invoking
`process_equipment_item` once per record sequentially; the run completes
and the keys of the returned mapping are exactly the unit ids of those
records.  (A limit of `0` is falsy in Python, so `df.head(max_items) if
max_items else df` processes *all* records — see the counterexample.) -/
theorem claim_C8_amended (clients : Nat → Nat → Except String String)
    (md5hex : String → String) (df : List Row) (s : CacheState) (n : Int) (hn : 0 < n)
    (hrows : ∀ row ∈ df.take n.toNat,
      row.year = none ∧ row.location = none ∧ row.condition = none) :
    process_equipment_list clients md5hex df (some n) s =
      process_list_go clients md5hex (df.take n.toNat) 0 ([], s) ∧
    (process_list_go clients md5hex (df.take n.toNat) 0 ([], s)).isOk = true ∧
    ∀ res s2, process_list_go clients md5hex (df.take n.toNat) 0 ([], s) =
        Except.ok (res, s2) →
      ∀ k, k ∈ res.map Prod.fst ↔ k ∈ (df.take n.toNat).map Row.unit_id := by
  have h1 : process_equipment_list clients md5hex df (some n) s =
      process_list_go clients md5hex (df.take n.toNat) 0 ([], s) := by
    simp [process_equipment_list, df_head, hn.ne', hn.le]
  have h2 := process_list_go_ok_keys clients md5hex (df.take n.toNat) 0 [] s hrows
  refine ⟨h1, h2.1, fun res s2 heq k => ?_⟩
  rw [h2.2 res s2 heq k]
  simp

/-- Witness for `claim_C8_amended`: limit 2 over three records processes
the first two, completes, and returns exactly their unit ids as keys. -/
theorem claim_C8_amended_witness :
    (0 : Int) < 2 ∧
    process_equipment_list (fun _ _ => Except.error "down") id dfw3 (some 2)
        CacheState.empty =
      process_list_go (fun _ _ => Except.error "down") id (dfw3.take (2 : Int).toNat) 0
        ([], CacheState.empty) ∧
    (process_list_go (fun _ _ => Except.error "down") id (dfw3.take (2 : Int).toNat) 0
        ([], CacheState.empty)).isOk = true ∧
    ("B" ∈ [("A", Json.obj [("error", Json.str "down")]),
        ("B", Json.obj [("error", Json.str "down")])].map Prod.fst ↔
      "B" ∈ (dfw3.take (2 : Int).toNat).map Row.unit_id) :=
  ⟨by decide,
   (claim_C8_amended (fun _ _ => Except.error "down") id dfw3 CacheState.empty 2
     (by decide) (by decide)).1,
   (claim_C8_amended (fun _ _ => Except.error "down") id dfw3 CacheState.empty 2
     (by decide) (by decide)).2.1,
   (claim_C8_amended (fun _ _ => Except.error "down") id dfw3 CacheState.empty 2
     (by decide) (by decide)).2.2
     [("A", Json.obj [("error", Json.str "down")]),
      ("B", Json.obj [("error", Json.str "down")])]
     ⟨[], [("B|d2", none), ("A|d1", none)]⟩ (by decide) "B"⟩

/-- Counterexample to claim C8 as stated: with the given limit `0` the
claim demands that no record be processed and the mapping be empty, but
`0` is falsy, so the code processes the whole input — here one record,
whose unit id shows up as a key. -/
theorem claim_C8_counterexample :
    process_equipment_list (fun _ _ => Except.error "down") id
        [⟨"A", "d1", none, none, none⟩] (some 0) CacheState.empty =
      Except.ok ([("A", Json.obj [("error", Json.str "down")])],
        ⟨[], [("A|d1", none)]⟩) ∧
    [("A", Json.obj [("error", Json.str "down")])].map Prod.fst ≠ ([] : List String) := by
  refine ⟨by decide, by decide⟩

/-! ### Claim C9 -/

/-- Claim C9, corrected: only the *exception* path of `enhance_valuation`
preserves the prior result — it returns a dict with the `error` message
and `original_valuation` holding the prior valuation.  When the call
succeeds but the parse is unusable (an `error`-bearing dict or not a
dict), the code returns only `error: Failed to enhance valuation`
*without* `original_valuation` (see the counterexample).  On success the
enhanced result is stored under the base fingerprint with the
`_enhanced` suffix — for a record whose fingerprint is computed at all;
a record with a `Year`/`Condition` key instead raises `NameError` at
line 248 *inside* the `try`, so the except path returns the message with
`original_valuation` and nothing is cached (fourth conjunct). -/
theorem claim_C9_amended (md5hex : String → String) (initial_valuation : Json) (row : Row)
    (s : CacheState) :
    (∀ e, enhance_valuation (Except.error e) md5hex initial_valuation row s =
      (Json.obj [("error", Json.str e), ("original_valuation", initial_valuation)], s)) ∧
    (∀ text, (∀ fields, parse_claude_response text = Json.obj fields →
        py_truthy (lookupAssoc fields "error") = true) →
      enhance_valuation (Except.ok text) md5hex initial_valuation row s =
        (Json.obj [("error", Json.str "Failed to enhance valuation")], s)) ∧
    (∀ text fields base_hash, parse_claude_response text = Json.obj fields →
        py_truthy (lookupAssoc fields "error") = false →
        get_equipment_hash md5hex row = Except.ok base_hash →
      lookupAssoc ((enhance_valuation (Except.ok text) md5hex initial_valuation row
            s).2).disk (base_hash ++ "_enhanced") =
        some (enhance_valuation (Except.ok text) md5hex initial_valuation row s).1) ∧
    (∀ text fields, parse_claude_response text = Json.obj fields →
        py_truthy (lookupAssoc fields "error") = false →
        (row.year.isSome || row.condition.isSome) = true →
      enhance_valuation (Except.ok text) md5hex initial_valuation row s =
        (Json.obj [("error", Json.str pd_nameerror),
          ("original_valuation", initial_valuation)], s)) := by
  refine ⟨fun e => rfl, ?_, ?_, ?_⟩
  · intro text h
    cases hp : parse_claude_response text with
    | obj fields => simp [enhance_valuation, hp, h fields hp]
    | null => simp [enhance_valuation, hp]
    | bool b => simp [enhance_valuation, hp]
    | num n => simp [enhance_valuation, hp]
    | str t => simp [enhance_valuation, hp]
    | arr l => simp [enhance_valuation, hp]
  · intro text fields base_hash hp herr hhash
    simp only [enhance_valuation, hp, herr, Bool.false_eq_true, if_false, hhash,
      save_to_cache]
    exact lookup_dict_insert_self _ _ _
  · intro text fields hp herr hrow
    simp [enhance_valuation, hp, herr, hash_nameerror md5hex row hrow]

/-- Witness for `claim_C9_amended`: a successful enhancement is stored
under the suffixed fingerprint. -/
theorem claim_C9_amended_witness :
    lookupAssoc ((enhance_valuation (Except.ok "\x7b\"new_value\": 9\x7d") id
        (Json.obj [("new_value", Json.num 7)]) rowX CacheState.empty).2).disk
      ("A1|Dozer" ++ "_enhanced") =
      some (enhance_valuation (Except.ok "\x7b\"new_value\": 9\x7d") id
        (Json.obj [("new_value", Json.num 7)]) rowX CacheState.empty).1 :=
  (claim_C9_amended id (Json.obj [("new_value", Json.num 7)]) rowX
    CacheState.empty).2.2.1 "\x7b\"new_value\": 9\x7d" [("new_value", Json.num 9)]
    "A1|Dozer" (by decide) (by decide) (by decide)

/-- Counterexample to claim C9 as stated: the call succeeds but the model
output parses to an `error`-bearing dict; `enhance_valuation` fails, yet
its result carries no `original_valuation` key — the prior valuation is
lost on this failure path. -/
theorem claim_C9_counterexample :
    enhance_valuation (Except.ok "\x7b\"error\": \"bad\"\x7d") id
        (Json.obj [("new_value", Json.num 7)]) rowX CacheState.empty =
      (Json.obj [("error", Json.str "Failed to enhance valuation")], CacheState.empty) ∧
    objGet (enhance_valuation (Except.ok "\x7b\"error\": \"bad\"\x7d") id
        (Json.obj [("new_value", Json.num 7)]) rowX CacheState.empty).1
      "original_valuation" = none := by
  refine ⟨by decide, by decide⟩

/-! ### Claim C10 -/

/-- Claim C10, confirmed: every mapping returned by `enhance_valuation`
that lacks an `error` key carries an `enhanced_analysis` key (this holds
for *every* record — the `NameError` path for rows with optional keys
returns an `error`-bearing dict, excluded by the hypothesis); and when
the parsed model output is a usable dict lacking that key and the
record's fingerprint is computed, the returned and cached result is the
parse extended with `enhanced_analysis` set to its `justification`
value, or the empty string when that is also absent. -/
theorem claim_C10_enhanced_analysis (md5hex : String → String) (initial_valuation : Json)
    (row : Row) (s : CacheState) :
    (∀ c, objGet (enhance_valuation c md5hex initial_valuation row s).1 "error" = none →
      (objGet (enhance_valuation c md5hex initial_valuation row s).1
        "enhanced_analysis").isSome = true) ∧
    (∀ text fields base_hash, parse_claude_response text = Json.obj fields →
        py_truthy (lookupAssoc fields "error") = false →
        lookupAssoc fields "enhanced_analysis" = none →
        get_equipment_hash md5hex row = Except.ok base_hash →
      (enhance_valuation (Except.ok text) md5hex initial_valuation row s).1 =
        Json.obj (dict_insert fields "enhanced_analysis"
          ((lookupAssoc fields "justification").getD (Json.str ""))) ∧
      lookupAssoc ((enhance_valuation (Except.ok text) md5hex initial_valuation row
            s).2).disk (base_hash ++ "_enhanced") =
        some (enhance_valuation (Except.ok text) md5hex initial_valuation row s).1) := by
  constructor
  · intro c h
    match c with
    | Except.error e => simp [enhance_valuation, objGet, lookupAssoc] at h
    | Except.ok text =>
      cases hp : parse_claude_response text with
      | obj fields =>
        by_cases herr : py_truthy (lookupAssoc fields "error")
        · rw [show enhance_valuation (Except.ok text) md5hex initial_valuation row s =
              (Json.obj [("error", Json.str "Failed to enhance valuation")], s) from by
            simp [enhance_valuation, hp, herr]] at h
          simp [objGet, lookupAssoc] at h
        · cases hhash : get_equipment_hash md5hex row with
          | error e =>
            rw [show enhance_valuation (Except.ok text) md5hex initial_valuation row s =
                (Json.obj [("error", Json.str e),
                  ("original_valuation", initial_valuation)], s) from by
              simp [enhance_valuation, hp, herr, hhash]] at h
            simp [objGet, lookupAssoc] at h
          | ok base_hash =>
            by_cases hk : (lookupAssoc fields "enhanced_analysis").isSome
            · simp [enhance_valuation, hp, herr, hhash, hk, objGet]
            · simp [enhance_valuation, hp, herr, hhash, hk, objGet,
                lookup_dict_insert_self]
      | null => simp [enhance_valuation, hp, objGet, lookupAssoc] at h
      | bool b => simp [enhance_valuation, hp, objGet, lookupAssoc] at h
      | num n => simp [enhance_valuation, hp, objGet, lookupAssoc] at h
      | str t => simp [enhance_valuation, hp, objGet, lookupAssoc] at h
      | arr l => simp [enhance_valuation, hp, objGet, lookupAssoc] at h
  · intro text fields base_hash hp herr hk hhash
    constructor
    · simp [enhance_valuation, hp, herr, hhash, hk]
    · simp only [enhance_valuation, hp, herr, Bool.false_eq_true, if_false, hhash,
        save_to_cache]
      exact lookup_dict_insert_self _ _ _

/-- Witness for `claim_C10_enhanced_analysis`: a parse lacking
`enhanced_analysis` gets the field filled from `justification` and the
filled result is cached under the suffixed fingerprint. -/
theorem claim_C10_enhanced_analysis_witness :
    (enhance_valuation (Except.ok "\x7b\"justification\": \"solid\"\x7d") id
        (Json.obj [("new_value", Json.num 7)]) rowX CacheState.empty).1 =
      Json.obj [("justification", Json.str "solid"),
        ("enhanced_analysis", Json.str "solid")] ∧
    lookupAssoc ((enhance_valuation (Except.ok "\x7b\"justification\": \"solid\"\x7d") id
        (Json.obj [("new_value", Json.num 7)]) rowX CacheState.empty).2).disk
      ("A1|Dozer" ++ "_enhanced") =
      some (enhance_valuation (Except.ok "\x7b\"justification\": \"solid\"\x7d") id
        (Json.obj [("new_value", Json.num 7)]) rowX CacheState.empty).1 := by
  have h := (claim_C10_enhanced_analysis id (Json.obj [("new_value", Json.num 7)]) rowX
    CacheState.empty).2 "\x7b\"justification\": \"solid\"\x7d"
    [("justification", Json.str "solid")] "A1|Dozer"
    (by decide) (by decide) (by decide) (by decide)
  exact ⟨h.1.trans (by decide), h.2⟩

end EquipmentValuation
